import Mathlib

/-!
# Verification of the speed-test admission-control and data-generation core

Shallow embedding of the Go sources:
  * `internal/handlers/handlers.go` — `Download` parameter parsing,
    `downloadChunked` chunk partitioning;
  * `internal/ratelimit/client_limiter.go` — `ClientLimiter.IsAllowed`,
    `DecrementActiveTests`, `getTotalActiveRequests`, `cleanupExpiredEntries`;
  * `internal/middleware` — `ConcurrentRequestLimiter` and its `Middleware`.

Modelling conventions:
  * Timestamps are integers (seconds); `time.After`/`Before` become strict
    `<` on `Int`.  5 minutes = 300 s, 24 hours = 86400 s.
  * The Go `map[string]*ClientInfo` becomes an association list with
    first-match lookup and replace-first update; map iteration order only
    feeds commutative sums, so the list order is irrelevant.
  * Counters (`len(Requests)`, limits) are naturals: the limiter only ever
    compares a nonnegative count with a limit via `>=`, so a nonpositive
    Go limit behaves exactly like the natural 0.
  * Byte sizes in the chunk generator are naturals; Go's `int64` division
    on the positive values reaching `downloadChunked` is floor division,
    matching `Nat` division.  Theorems carry an explicit
    `numChunks * chunkSize < 2^63` premise where `int64` overflow would
    otherwise diverge from `Nat` arithmetic.
-/

/-! ## Chunk generator (`handlers.go`, `downloadChunked` and `Download`) -/

/-- Function `actualChunkSize` from `downloadChunked`:
`actualChunkSize := totalSize / numChunks; if actualChunkSize < chunkSize
then actualChunkSize = chunkSize`. -/
def actualChunkSize (totalSize : Nat) (numChunks : Nat) (chunkSize : Nat) : Nat :=
  if totalSize / numChunks < chunkSize then chunkSize else totalSize / numChunks

/-- One worker of `downloadChunked`: chunk `chunkID` covers
`[chunkID*actualChunkSize, min (chunkID*actualChunkSize + actualChunkSize) totalSize)`
and is sent on the channel only when its size is positive
(`if size <= 0 { return }`).  Returns `some (index, length)` when emitted. -/
def chunkWorker (totalSize : Nat) (c : Nat) (chunkID : Nat) : Option (Nat × Nat) :=
  let start := chunkID * c
  let e := min (start + c) totalSize
  if e - start = 0 then none else some (chunkID, e - start)

/-- The multiset of `(index, length)` frames emitted by the workers of
`downloadChunked` for total size `totalSize`, `numChunks` workers and
minimum chunk size `chunkSize` (listed here in index order; the Go
coordinator writes them in completion order, which only permutes them). -/
def emittedChunks (totalSize : Nat) (numChunks : Nat) (chunkSize : Nat) :
    List (Nat × Nat) :=
  (List.range numChunks).filterMap
    (chunkWorker totalSize (actualChunkSize totalSize numChunks chunkSize))

/-- Sum of the emitted chunk lengths. -/
def emittedTotal (totalSize : Nat) (numChunks : Nat) (chunkSize : Nat) : Nat :=
  ((emittedChunks totalSize numChunks chunkSize).map Prod.snd).sum

/-- Parameter parsing in `Download` for `size`: default `50 << 20`; a supplied
value replaces it only when it parses and is `> 0`.  `none` stands for an
absent or unparsable query parameter, `some v` for one that parsed to `v`. -/
def effSize (p : Option Int) : Int :=
  match p with
  | none => 50 <<< 20
  | some v => if 0 < v then v else 50 <<< 20

/-- Parameter parsing in `Download` for `chunks`: default 1; a supplied value
replaces it only when it parses and `0 < v && v <= 10`. -/
def effChunks (p : Option Int) : Int :=
  match p with
  | none => 1
  | some v => if 0 < v && v ≤ 10 then v else 1

/-- Parameter parsing in `Download` for `chunk_size`: default `1 << 20`; a
supplied value replaces it only when it parses and is `> 0`. -/
def effChunkSize (p : Option Int) : Int :=
  match p with
  | none => 1 <<< 20
  | some v => if 0 < v then v else 1 <<< 20

/-! ## Per-client sliding-window limiter (`client_limiter.go`) -/

/-- Record `ClientInfo` (the `IP` field is the association-list key and is not
duplicated here). -/
structure ClientInfo where
  requests : List Int
  activeTests : Nat
  totalRequests : Nat
  lastSeen : Int
  isBlocked : Bool
  blockedUntil : Int
  deriving Repr, DecidableEq

/-- Fresh record made by `getOrCreateClient` (`BlockedUntil` is the zero
time; it is never read while `isBlocked = false`). -/
def newClientInfo (now : Int) : ClientInfo :=
  { requests := [], activeTests := 0, totalRequests := 0,
    lastSeen := now, isBlocked := false, blockedUntil := 0 }

/-- The client map, as an association list. -/
abbrev ClientMap := List (String × ClientInfo)

/-- Map lookup. -/
def lookupClient (clients : ClientMap) (ip : String) : Option ClientInfo :=
  (clients.find? (fun p => p.1 == ip)).map Prod.snd

/-- Map store: replace the first binding of `ip`, or append a new one. -/
def setClient (clients : ClientMap) (ip : String) (ci : ClientInfo) : ClientMap :=
  match clients with
  | [] => [(ip, ci)]
  | (k, v) :: rest =>
      if k == ip then (ip, ci) :: rest else (k, v) :: setClient rest ip ci

/-- Number of a client's requests strictly after `cutoff`
(`reqTime.After(cutoff)`). -/
def cntWin (reqs : List Int) (cutoff : Int) : Nat :=
  (reqs.filter (fun t => cutoff < t)).length

/-- Function `getTotalActiveRequests` over a given map with a given cutoff. -/
def totalActive (clients : ClientMap) (cutoff : Int) : Nat :=
  (clients.map (fun p => cntWin p.2.requests cutoff)).sum

/-- Structure `ClientLimiter` (the mutex, cleanup interval and goroutine handle are
concurrency plumbing with no algorithmic content). -/
structure ClientLimiter where
  clients : ClientMap
  globalLimit : Nat
  perClientLimit : Nat
  timeWindow : Int
  whitelist : List String
  deriving Repr, DecidableEq

/-- Method `getTotalActiveRequests(now)` on the limiter. -/
def ClientLimiter.totalActiveRequests (cl : ClientLimiter) (now : Int) : Nat :=
  totalActive cl.clients (now - cl.timeWindow)

/-- Method `IsAllowed(ip)` at time `now`: returns the decision and the updated
limiter.  A line-by-line functional rendering of the Go method: whitelist
short-circuit (with `updateClientInfo`), get-or-create, unexpired-block
check, prune, per-client check (block for 300 s), global check, record. -/
def ClientLimiter.IsAllowed (cl : ClientLimiter) (ip : String) (now : Int) :
    Bool × ClientLimiter :=
  if cl.whitelist.contains ip then
    let client := (lookupClient cl.clients ip).getD (newClientInfo now)
    let client' := { client with lastSeen := now,
                                 totalRequests := client.totalRequests + 1 }
    (true, { cl with clients := setClient cl.clients ip client' })
  else
    let client := (lookupClient cl.clients ip).getD (newClientInfo now)
    let clients0 := setClient cl.clients ip client
    if client.isBlocked && now < client.blockedUntil then
      (false, { cl with clients := clients0 })
    else
      let cutoff := now - cl.timeWindow
      let pruned := client.requests.filter (fun t => cutoff < t)
      let client1 := { client with requests := pruned }
      let clients1 := setClient clients0 ip client1
      if cl.perClientLimit ≤ pruned.length then
        let client2 := { client1 with isBlocked := true,
                                      blockedUntil := now + 300 }
        (false, { cl with clients := setClient clients1 ip client2 })
      else
        if cl.globalLimit ≤ totalActive clients1 cutoff then
          (false, { cl with clients := clients1 })
        else
          let client3 := { client1 with
                             requests := pruned ++ [now],
                             totalRequests := client1.totalRequests + 1,
                             lastSeen := now,
                             isBlocked := false }
          (true, { cl with clients := setClient clients1 ip client3 })

/-- Method `DecrementActiveTests(ip)`: only an existing record with a positive
count is decremented. -/
def ClientLimiter.DecrementActiveTests (cl : ClientLimiter) (ip : String) :
    ClientLimiter :=
  match lookupClient cl.clients ip with
  | none => cl
  | some c =>
      if 0 < c.activeTests then
        let c' := { c with activeTests := c.activeTests - 1 }
        { cl with clients := setClient cl.clients ip c' }
      else cl

/-- One sweep of `cleanupExpiredEntries` at time `now`: delete every record
with `LastSeen.Before(now - 24h)` and `ActiveTests == 0`. -/
def cleanupSweep (clients : ClientMap) (now : Int) : ClientMap :=
  clients.filter
    (fun p => !(decide (p.2.lastSeen < now - 86400) && p.2.activeTests == 0))

/-! ## Global concurrency admission gate (`middleware`) -/

/-- Structure `ConcurrentRequestLimiter`: `maxReqs` is the semaphore capacity
(0 = unlimited), `held` the number of slots currently occupied (the
buffered channel's fill level). -/
structure ConcurrentRequestLimiter where
  maxReqs : Nat
  held : Nat
  deriving Repr, DecidableEq

/-- Constructor `NewConcurrentRequestLimiter(maxRequests)`: a nonpositive capacity
yields the disabled gate (`maxReqs = 0`, no semaphore). -/
def NewConcurrentRequestLimiter (maxRequests : Int) : ConcurrentRequestLimiter :=
  if maxRequests ≤ 0 then { maxReqs := 0, held := 0 }
  else { maxReqs := maxRequests.toNat, held := 0 }

/-- Outcome of the middleware for one inbound request. -/
inductive GateDecision where
  /-- the handler runs without touching the gate (WebSocket upgrade or
  disabled gate) -/
  | passUnlimited : GateDecision
  /-- a slot was taken and the handler runs -/
  | acquired : GateDecision
  /-- the handler is not invoked; the response carries this status and
  Retry-After value -/
  | rejected (status : Nat) (retryAfter : String) : GateDecision
  deriving Repr, DecidableEq

/-- One request through `ConcurrentRequestLimiter.Middleware`: WebSocket
upgrades bypass the gate, `maxReqs = 0` disables it, otherwise the
non-blocking `select` acquires a slot iff one is free and rejects with
503 / `Retry-After: 1` when the channel is full. -/
def gateStep (c : ConcurrentRequestLimiter) (isWebSocketUpgrade : Bool) :
    GateDecision × ConcurrentRequestLimiter :=
  if isWebSocketUpgrade then (.passUnlimited, c)
  else if c.maxReqs = 0 then (.passUnlimited, c)
  else if c.held < c.maxReqs then (.acquired, { c with held := c.held + 1 })
  else (.rejected 503 "1", c)

/-- Successive `IsAllowed` calls from one client: the list of decisions in
order and the final limiter state. -/
def runRequests (cl : ClientLimiter) (ip : String) :
    List Int → List Bool × ClientLimiter
  | [] => ([], cl)
  | t :: ts =>
      let r := cl.IsAllowed ip t
      let rest := runRequests r.2 ip ts
      (r.1 :: rest.1, rest.2)

/-- The spec's blocking scenario: per-client limit 10 per 60 s window, an
ample global limit of 100, empty initial state. -/
def scenarioLimiter : ClientLimiter :=
  { clients := [], globalLimit := 100, perClientLimit := 10,
    timeWindow := 60, whitelist := [] }

/-! ## Lemmas about the chunk generator -/

/-- A worker emits a frame iff its range starts before the end of the
payload (positive effective chunk size). -/
lemma chunkWorker_eq (S c i : Nat) (hc : 0 < c) :
    chunkWorker S c i =
      if i * c < S then some (i, min (i * c + c) S - i * c) else none := by
  unfold chunkWorker
  rcases Nat.lt_or_ge (i * c) S with h | h
  · have h1 : i * c < min (i * c + c) S := lt_min (by omega) h
    simp only [if_pos h]
    rw [if_neg (by omega)]
  · have h1 : min (i * c + c) S = S := min_eq_right (by omega)
    simp only [if_neg (Nat.not_lt.mpr h)]
    rw [if_pos (by omega)]

/-- Telescoping sum: the first `n` workers together emit exactly
`min (n*c) S` bytes. -/
lemma chunk_sum (S c : Nat) (hc : 0 < c) (n : Nat) :
    ((((List.range n).filterMap (chunkWorker S c)).map Prod.snd)).sum
      = min (n * c) S := by
  induction n with
  | zero => simp
  | succ k ih =>
      rw [List.range_succ, List.filterMap_append, List.map_append,
        List.sum_append, ih]
      simp only [List.filterMap_cons, List.filterMap_nil, chunkWorker_eq S c k hc]
      rcases Nat.lt_or_ge (k * c) S with h | h
      · rw [if_pos h]
        simp only [List.map_cons, List.map_nil, List.sum_cons, List.sum_nil]
        have : (k + 1) * c = k * c + c := by ring
        omega
      · rw [if_neg (Nat.not_lt.mpr h)]
        simp only [List.map_nil, List.sum_nil]
        have : (k + 1) * c = k * c + c := by ring
        omega

/-- The emitted indices are exactly those whose range starts inside the
payload. -/
lemma chunk_indices (S c : Nat) (hc : 0 < c) (n : Nat) :
    (((List.range n).filterMap (chunkWorker S c)).map Prod.fst)
      = (List.range n).filter (fun i => decide (i * c < S)) := by
  induction n with
  | zero => simp
  | succ k ih =>
      rw [List.range_succ, List.filterMap_append, List.map_append, ih,
        List.filter_append]
      simp only [List.filterMap_cons, List.filterMap_nil, List.filter_cons,
        List.filter_nil, chunkWorker_eq S c k hc]
      rcases Nat.lt_or_ge (k * c) S with h | h
      · rw [if_pos h]
        simp [h]
      · rw [if_neg (Nat.not_lt.mpr h)]
        simp [Nat.not_lt.mpr h]

/-- The effective chunk size is positive when the minimum chunk size is. -/
lemma actualChunkSize_pos (S P m : Nat) (hm : 0 < m) :
    0 < actualChunkSize S P m := by
  unfold actualChunkSize
  split <;> omega

/-- Claim C1.  The claim as stated is FALSE on the code: `downloadChunked`
computes `actualChunkSize = totalSize / numChunks` by integer division and
caps each chunk's end at `totalSize`, so when the equal-size partition
leaves a remainder the final chunk is truncated, not extended — the
remainder is dropped.  At `S = 11`, `P = 2`, minimum chunk size `1`, the
two emitted chunks have lengths 5 and 5: they sum to 10, not 11. -/
theorem chunked_sum_claim_false :
    ¬ (emittedTotal 11 2 1 = 11 ∧
        (emittedChunks 11 2 1).map Prod.fst = List.range 2) := by
  decide

/-- Claim C1, amended.  For a chunked download of total size `S > 0`,
parallelism `2 ≤ P ≤ 10` and minimum chunk size `m > 0` (with
`P * c < 2^63` so that the `int64` arithmetic of the Go source is the
natural-number arithmetic of the model), writing `c = max(m, S / P)` for
the effective chunk size: the emitted chunk lengths sum to
`min (P * c) S` — equal to `S` only when `P * c ≥ S` — and the emitted
indices are exactly the `i < P` with `i * c < S`, with no duplicates. -/
theorem chunked_sum_and_indices (S P m : Nat) (hS : 0 < S) (hP2 : 2 ≤ P)
    (hP10 : P ≤ 10) (hm : 0 < m)
    (hword : P * actualChunkSize S P m < 2 ^ 63) :
    emittedTotal S P m = min (P * actualChunkSize S P m) S ∧
    (emittedChunks S P m).map Prod.fst
      = (List.range P).filter
          (fun i => decide (i * actualChunkSize S P m < S)) ∧
    ((emittedChunks S P m).map Prod.fst).Nodup := by
  have hc := actualChunkSize_pos S P m hm
  refine ⟨chunk_sum S _ hc P, chunk_indices S _ hc P, ?_⟩
  unfold emittedChunks
  rw [chunk_indices S _ hc P]
  exact (List.nodup_range P).filter _

/-- Witness for `C1` (amended): at `S = 11`, `P = 2`, `m = 1` the sum is
`min (2*5) 11 = 10` and the emitted indices are `[0, 1]`. -/
theorem chunked_sum_and_indices_witness :
    emittedTotal 11 2 1 = min (2 * actualChunkSize 11 2 1) 11 ∧
    (emittedChunks 11 2 1).map Prod.fst
      = (List.range 2).filter (fun i => decide (i * actualChunkSize 11 2 1 < 11)) ∧
    ((emittedChunks 11 2 1).map Prod.fst).Nodup :=
  chunked_sum_and_indices 11 2 1 (by decide) (by decide) (by decide) (by decide)
    (by decide)

/-- Claim C4.  `Download` parameter handling: an absent or invalid (`≤ 0` or
unparsable) `size` defaults to 50 MiB = 52428800; an absent `chunks`
defaults to 1 and the accepted value never exceeds the hard cap 10 (a
value outside `1..10` falls back to the default 1); `chunk_size` defaults
to 1 MiB = 1048576; and the effective chunk size used by
`downloadChunked` is `max(minimum chunk size, totalSize / numChunks)`. -/
theorem download_parameter_defaults :
    effSize none = 52428800 ∧
    (∀ v : Int, v ≤ 0 → effSize (some v) = 52428800) ∧
    effChunks none = 1 ∧
    (∀ p : Option Int, 1 ≤ effChunks p ∧ effChunks p ≤ 10) ∧
    effChunkSize none = 1048576 ∧
    (∀ S P m : Nat, actualChunkSize S P m = max m (S / P)) := by
  refine ⟨by decide, ?_, by decide, ?_, by decide, ?_⟩
  · intro v hv
    simp only [effSize, if_neg (by omega : ¬ (0 : Int) < v)]
    decide
  · intro p
    rcases p with _ | v
    · exact ⟨by decide, by decide⟩
    · simp only [effChunks]
      split
      · next h =>
          rw [Bool.and_eq_true, decide_eq_true_eq, decide_eq_true_eq] at h
          omega
      · exact ⟨le_refl _, by omega⟩
  · intro S P m
    unfold actualChunkSize
    split <;> omega

/-- Witness for `C4`: `size = -7` falls back to the 50 MiB default,
`chunks = 15` exceeds the cap and falls back to 1, and the spec scenario
`S = 10000000`, `P = 4`, `m = 1048576` gets effective chunk size
`max 1048576 2500000 = 2500000`. -/
theorem download_parameter_defaults_witness :
    effSize (some (-7)) = 52428800 ∧
    (1 ≤ effChunks (some 15) ∧ effChunks (some 15) ≤ 10) ∧
    actualChunkSize 10000000 4 1048576 = max 1048576 (10000000 / 4) :=
  ⟨download_parameter_defaults.2.1 (-7) (by decide),
   download_parameter_defaults.2.2.2.1 (some 15),
   download_parameter_defaults.2.2.2.2.2 10000000 4 1048576⟩

/-! ## Lemmas about the client map -/

/-- Looking up the key just stored yields the stored record. -/
lemma lookup_setClient_self (clients : ClientMap) (ip : String) (ci : ClientInfo) :
    lookupClient (setClient clients ip ci) ip = some ci := by
  induction clients with
  | nil => simp [setClient, lookupClient]
  | cons p rest ih =>
      obtain ⟨k, v⟩ := p
      by_cases hk : (k == ip) = true
      · simp [setClient, hk, lookupClient]
      · simp only [setClient, if_neg hk]
        simp only [lookupClient, List.find?_cons, hk]
        exact ih

/-- Storing a record shifts the aggregate in-window count by the difference
between the new and the previously bound record (phrased additively to stay
in `Nat`). -/
lemma totalActive_setClient_some (clients : ClientMap) (ip : String)
    (c c' : ClientInfo) (co : Int) (h : lookupClient clients ip = some c) :
    totalActive (setClient clients ip c') co + cntWin c.requests co
      = totalActive clients co + cntWin c'.requests co := by
  induction clients with
  | nil => simp [lookupClient] at h
  | cons p rest ih =>
      obtain ⟨k, v⟩ := p
      by_cases hk : (k == ip) = true
      · have hv : v = c := by
          simpa [lookupClient, List.find?_cons, hk] using h
        subst hv
        simp only [setClient, if_pos hk, totalActive, List.map_cons,
          List.sum_cons]
        omega
      · have h' : lookupClient rest ip = some c := by
          simpa [lookupClient, List.find?_cons, hk] using h
        simp only [setClient, if_neg hk, totalActive, List.map_cons,
          List.sum_cons]
        have := ih h'
        simp only [totalActive] at this
        omega

/-- Storing a record under a fresh key adds its in-window count to the
aggregate. -/
lemma totalActive_setClient_none (clients : ClientMap) (ip : String)
    (c' : ClientInfo) (co : Int) (h : lookupClient clients ip = none) :
    totalActive (setClient clients ip c') co
      = totalActive clients co + cntWin c'.requests co := by
  induction clients with
  | nil => simp [setClient, totalActive]
  | cons p rest ih =>
      obtain ⟨k, v⟩ := p
      by_cases hk : (k == ip) = true
      · simp [lookupClient, List.find?_cons, hk] at h
      · have h' : lookupClient rest ip = none := by
          simpa [lookupClient, List.find?_cons, hk] using h
        simp only [setClient, if_neg hk, totalActive, List.map_cons,
          List.sum_cons]
        have := ih h'
        simp only [totalActive] at this
        omega

/-- Function `getOrCreateClient` followed by a store: the aggregate shifts by the
difference between the stored record and the record `getD`-defaulted to a
fresh (empty-window) one. -/
lemma totalActive_setClient_getD (clients : ClientMap) (ip : String)
    (c' : ClientInfo) (co now : Int) :
    totalActive (setClient clients ip c') co
      + cntWin ((lookupClient clients ip).getD (newClientInfo now)).requests co
      = totalActive clients co + cntWin c'.requests co := by
  cases h : lookupClient clients ip with
  | none =>
      rw [totalActive_setClient_none clients ip c' co h]
      simp [newClientInfo, cntWin]
  | some c =>
      simpa using totalActive_setClient_some clients ip c c' co h

/-- Pruning is transparent to the in-window count: requests dropped by the
prune are exactly those the count ignores. -/
lemma cntWin_prune (reqs : List Int) (co : Int) :
    cntWin (reqs.filter (fun t => co < t)) co = cntWin reqs co := by
  simp [cntWin, List.filter_filter]

/-- Appending one in-window timestamp raises the count by one. -/
lemma cntWin_append_one (l : List Int) (co t : Int) (h : co < t) :
    cntWin (l ++ [t]) co = cntWin l co + 1 := by
  simp [cntWin, List.filter_append, h]

/-! ## Claim theorems: whitelist, decrement, reaper, gate -/

/-- Claim C7.  A whitelisted client identifier is allowed by `IsAllowed`
unconditionally: whatever its stored history, block state, or the
aggregate in-window count (the whitelist check precedes every other
check and returns early). -/
theorem whitelisted_always_allowed (cl : ClientLimiter) (ip : String)
    (now : Int) (h : cl.whitelist.contains ip = true) :
    (cl.IsAllowed ip now).1 = true := by
  unfold ClientLimiter.IsAllowed
  rw [if_pos h]

/-- Witness for `C7`: a whitelisted client that is blocked until time 1000,
has three in-window requests and faces a global limit of 0 is still allowed
at time 5. -/
theorem whitelisted_always_allowed_witness :
    ((⟨[("w", ⟨[0, 0, 0], 0, 3, 0, true, 1000⟩)], 0, 0, 60, ["w"]⟩ :
        ClientLimiter).IsAllowed "w" 5).1 = true :=
  whitelisted_always_allowed _ "w" 5 (by decide)

/-- Claim C8.  `DecrementActiveTests` never drives a count negative: an
existing record ends at `activeTests - 1` under truncated subtraction
(so a record at zero stays at zero and is otherwise untouched), and a
missing record stays missing — the call creates nothing and changes
nothing. -/
theorem decrement_floors_at_zero (cl : ClientLimiter) (ip : String) :
    (∀ c : ClientInfo, lookupClient cl.clients ip = some c →
       lookupClient (cl.DecrementActiveTests ip).clients ip
         = some { c with activeTests := c.activeTests - 1 }) ∧
    (∀ c : ClientInfo, lookupClient cl.clients ip = some c →
       c.activeTests = 0 → cl.DecrementActiveTests ip = cl) ∧
    (lookupClient cl.clients ip = none → cl.DecrementActiveTests ip = cl) := by
  refine ⟨?_, ?_, ?_⟩
  · intro c hc
    unfold ClientLimiter.DecrementActiveTests
    simp only [hc]
    by_cases h0 : 0 < c.activeTests
    · rw [if_pos h0]
      exact lookup_setClient_self _ _ _
    · rw [if_neg h0]
      have h1 : c.activeTests - 1 = c.activeTests := by omega
      rw [h1]
      exact hc
  · intro c hc h0
    unfold ClientLimiter.DecrementActiveTests
    simp only [hc]
    rw [if_neg (by omega)]
  · intro hnone
    unfold ClientLimiter.DecrementActiveTests
    simp only [hnone]

/-- Witness for `C8`: decrementing the client `"a"` at count zero leaves
the limiter unchanged, and decrementing the absent client `"b"` does
too. -/
theorem decrement_floors_at_zero_witness :
    lookupClient ((⟨[("a", ⟨[], 0, 4, 7, false, 0⟩)], 5, 5, 60, []⟩ :
        ClientLimiter).DecrementActiveTests "a").clients "a"
      = some { (⟨[], 0, 4, 7, false, 0⟩ : ClientInfo) with activeTests := 0 - 1 } ∧
    (⟨[("a", ⟨[], 0, 4, 7, false, 0⟩)], 5, 5, 60, []⟩ :
        ClientLimiter).DecrementActiveTests "b"
      = ⟨[("a", ⟨[], 0, 4, 7, false, 0⟩)], 5, 5, 60, []⟩ :=
  ⟨(decrement_floors_at_zero _ "a").1 _ (by decide),
   (decrement_floors_at_zero _ "b").2.2 (by decide)⟩

/-- Claim C9.  One reaper sweep keeps a record iff it is NOT (last seen before
`now - 24h` with zero active tests): a record is removed exactly when it is
stale beyond the 24-hour horizon AND idle, and a record with a nonzero
active-test count survives no matter how stale. -/
theorem cleanup_removes_iff (clients : ClientMap) (now : Int) (ip : String)
    (c : ClientInfo) :
    ((ip, c) ∈ cleanupSweep clients now ↔
       (ip, c) ∈ clients ∧ ¬ (c.lastSeen < now - 86400 ∧ c.activeTests = 0)) ∧
    (c.activeTests ≠ 0 →
       ((ip, c) ∈ cleanupSweep clients now ↔ (ip, c) ∈ clients)) := by
  constructor
  · simp [cleanupSweep, List.mem_filter, not_and, imp_iff_not_or]
  · intro hact
    simp [cleanupSweep, List.mem_filter, hact]

/-- Witness for `C9`: a record 25 hours stale but with one active test
survives the sweep at time 90000. -/
theorem cleanup_removes_iff_witness :
    ("x", (⟨[], 1, 0, 0, false, 0⟩ : ClientInfo)) ∈
        cleanupSweep [("x", ⟨[], 1, 0, 0, false, 0⟩)] 90000 ↔
      ("x", (⟨[], 1, 0, 0, false, 0⟩ : ClientInfo)) ∈
        [(("x" : String), (⟨[], 1, 0, 0, false, 0⟩ : ClientInfo))] :=
  (cleanup_removes_iff [("x", ⟨[], 1, 0, 0, false, 0⟩)] 90000 "x" _).2
    (by decide)

/-- Claim C5.  The concurrency gate never queues: construction with a
nonpositive capacity yields the disabled gate, which passes every request
through untouched; with a positive capacity `N` the gate holds exactly
`N` slots, a request arriving with all slots held is rejected immediately
— handler not invoked — with status 503 and `Retry-After: 1` and the gate
state unchanged, and a request arriving with a free slot takes it. -/
theorem gate_never_queues :
    (∀ n : Int, n ≤ 0 →
       NewConcurrentRequestLimiter n = { maxReqs := 0, held := 0 }) ∧
    (∀ n : Int, 0 < n → (NewConcurrentRequestLimiter n).maxReqs = n.toNat) ∧
    (∀ (c : ConcurrentRequestLimiter) (ws : Bool), c.maxReqs = 0 →
       gateStep c ws = (.passUnlimited, c)) ∧
    (∀ c : ConcurrentRequestLimiter, c.maxReqs ≠ 0 → c.maxReqs ≤ c.held →
       gateStep c false = (.rejected 503 "1", c)) ∧
    (∀ c : ConcurrentRequestLimiter, c.held < c.maxReqs →
       gateStep c false = (.acquired, { c with held := c.held + 1 })) := by
  refine ⟨?_, ?_, ?_, ?_, ?_⟩
  · intro n hn
    unfold NewConcurrentRequestLimiter
    rw [if_pos hn]
  · intro n hn
    unfold NewConcurrentRequestLimiter
    rw [if_neg (by omega)]
  · intro c ws h0
    unfold gateStep
    cases ws with
    | true => rw [if_pos rfl]
    | false =>
        rw [if_neg (by simp), if_pos h0]
  · intro c hne hfull
    unfold gateStep
    rw [if_neg (by simp), if_neg hne, if_neg (by omega)]
  · intro c hfree
    unfold gateStep
    rw [if_neg (by simp), if_neg (by omega), if_pos hfree]

/-- Witness for `C5`: capacity `-2` disables the gate; with capacity 3 and
3 held slots a request is rejected with 503 / `Retry-After: 1` and the
state is unchanged. -/
theorem gate_never_queues_witness :
    NewConcurrentRequestLimiter (-2) = { maxReqs := 0, held := 0 } ∧
    gateStep { maxReqs := 3, held := 3 } false
      = (.rejected 503 "1", { maxReqs := 3, held := 3 }) :=
  ⟨gate_never_queues.1 (-2) (by decide),
   gate_never_queues.2.2.2.1 { maxReqs := 3, held := 3 } (by decide) (by decide)⟩

/-! ## Claim theorems: per-client blocking, global-limit frame, allow bound -/

/-- Claim C2.  A non-whitelisted client not under an unexpired block whose
pruned window has reached the per-client limit is denied, and its record is
marked blocked with expiry exactly `now + 300` s (5 minutes); in the spec
scenario (limit 10 per 60 s, 11 requests within 5 s), requests 1–10 are
allowed, request 11 is denied and the client is blocked until `304 = 4 + 300`. -/
theorem perclient_limit_blocks_for_cooldown :
    (∀ (cl : ClientLimiter) (ip : String) (now : Int) (c : ClientInfo),
       cl.whitelist.contains ip = false →
       lookupClient cl.clients ip = some c →
       ¬ (c.isBlocked = true ∧ now < c.blockedUntil) →
       cl.perClientLimit ≤
         (c.requests.filter (fun t => now - cl.timeWindow < t)).length →
       (cl.IsAllowed ip now).1 = false ∧
       lookupClient (cl.IsAllowed ip now).2.clients ip
         = some { c with
             requests := c.requests.filter (fun t => now - cl.timeWindow < t),
             isBlocked := true, blockedUntil := now + 300 }) ∧
    ((runRequests scenarioLimiter "c" [0, 0, 0, 1, 1, 1, 2, 2, 2, 3, 4]).1
        = [true, true, true, true, true, true, true, true, true, true, false] ∧
     (lookupClient (runRequests scenarioLimiter "c"
          [0, 0, 0, 1, 1, 1, 2, 2, 2, 3, 4]).2.clients "c").map
         ClientInfo.isBlocked = some true ∧
     (lookupClient (runRequests scenarioLimiter "c"
          [0, 0, 0, 1, 1, 1, 2, 2, 2, 3, 4]).2.clients "c").map
         ClientInfo.blockedUntil = some 304) := by
  constructor
  · intro cl ip now c hw hc hb hlim
    have hw' : ¬ cl.whitelist.contains ip = true := by
      intro h
      rw [h] at hw
      exact Bool.noConfusion hw
    have hb' : ¬ ((c.isBlocked && decide (now < c.blockedUntil)) = true) := by
      simp only [Bool.and_eq_true, decide_eq_true_eq]
      exact hb
    unfold ClientLimiter.IsAllowed
    rw [if_neg hw']
    simp only [hc, Option.getD_some]
    rw [if_neg hb', if_pos hlim]
    exact ⟨rfl, lookup_setClient_self _ _ _⟩
  · refine ⟨by decide, by decide, by decide⟩

/-- Witness for `C2`: per-client limit 3, a client with three in-window
requests at times 0, 1, 2 is denied at time 5 and blocked until `305`. -/
theorem perclient_limit_blocks_for_cooldown_witness :
    ((⟨[("u", ⟨[0, 1, 2], 0, 3, 2, false, 0⟩)], 100, 3, 60, []⟩ :
        ClientLimiter).IsAllowed "u" 5).1 = false ∧
    lookupClient ((⟨[("u", ⟨[0, 1, 2], 0, 3, 2, false, 0⟩)], 100, 3, 60, []⟩ :
        ClientLimiter).IsAllowed "u" 5).2.clients "u"
      = some { (⟨[0, 1, 2], 0, 3, 2, false, 0⟩ : ClientInfo) with
          requests := [(0 : Int), 1, 2].filter (fun t => (5 : Int) - 60 < t),
          isBlocked := true, blockedUntil := (5 : Int) + 300 } :=
  perclient_limit_blocks_for_cooldown.1
    (⟨[("u", ⟨[0, 1, 2], 0, 3, 2, false, 0⟩)], 100, 3, 60, []⟩ : ClientLimiter)
    "u" 5 (⟨[0, 1, 2], 0, 3, 2, false, 0⟩ : ClientInfo) (by decide) (by decide)
    (by decide) (by decide)

/-- Claim C6.  When a non-whitelisted, non-blocked client below its per-client
limit is denied solely because the aggregate in-window count has reached
the global limit, the denial leaves its record unchanged beyond pruning:
the stored record is exactly the old one with its window pruned — no
timestamp appended, total-request counter untouched, block flag and expiry
untouched. -/
theorem global_limit_denial_frame (cl : ClientLimiter) (ip : String)
    (now : Int) (c : ClientInfo)
    (hw : cl.whitelist.contains ip = false)
    (hc : lookupClient cl.clients ip = some c)
    (hb : ¬ (c.isBlocked = true ∧ now < c.blockedUntil))
    (hlim : (c.requests.filter (fun t => now - cl.timeWindow < t)).length
              < cl.perClientLimit)
    (hg : cl.globalLimit ≤ cl.totalActiveRequests now) :
    (cl.IsAllowed ip now).1 = false ∧
    lookupClient (cl.IsAllowed ip now).2.clients ip
      = some { c with
          requests := c.requests.filter (fun t => now - cl.timeWindow < t) } := by
  have hw' : ¬ cl.whitelist.contains ip = true := by
    intro h
    rw [h] at hw
    exact Bool.noConfusion hw
  have hb' : ¬ ((c.isBlocked && decide (now < c.blockedUntil)) = true) := by
    simp only [Bool.and_eq_true, decide_eq_true_eq]
    exact hb
  have hlim' : ¬ cl.perClientLimit ≤
      (c.requests.filter (fun t => now - cl.timeWindow < t)).length := by
    omega
  -- the aggregate the code measures after get-or-create and pruning equals
  -- the aggregate of the original state
  have t0 := totalActive_setClient_some cl.clients ip c c
    (now - cl.timeWindow) hc
  have l0 : lookupClient (setClient cl.clients ip c) ip = some c :=
    lookup_setClient_self _ _ _
  have t1 := totalActive_setClient_some (setClient cl.clients ip c) ip c
    ({ c with requests := c.requests.filter (fun t => now - cl.timeWindow < t) })
    (now - cl.timeWindow) l0
  have hpr : cntWin ({ c with
      requests := c.requests.filter (fun t => now - cl.timeWindow < t) } :
        ClientInfo).requests (now - cl.timeWindow) = cntWin c.requests
        (now - cl.timeWindow) := cntWin_prune c.requests (now - cl.timeWindow)
  have hg' : cl.globalLimit ≤ totalActive
      (setClient (setClient cl.clients ip c) ip
        ({ c with requests := c.requests.filter (fun t => now - cl.timeWindow < t) }))
      (now - cl.timeWindow) := by
    have hgx : cl.globalLimit ≤ totalActive cl.clients (now - cl.timeWindow) := hg
    omega
  unfold ClientLimiter.IsAllowed
  rw [if_neg hw']
  simp only [hc, Option.getD_some]
  rw [if_neg hb', if_neg hlim', if_pos hg']
  exact ⟨rfl, lookup_setClient_self _ _ _⟩

/-- Witness for `C6`: global limit 2 already consumed by another client's
two in-window requests; client `"u"` with one stale request is denied at
time 70 and its record is merely pruned. -/
theorem global_limit_denial_frame_witness :
    ((⟨[("v", ⟨[65, 66], 0, 2, 66, false, 0⟩),
        ("u", ⟨[1], 0, 1, 1, false, 0⟩)], 2, 5, 60, []⟩ :
        ClientLimiter).IsAllowed "u" 70).1 = false ∧
    lookupClient ((⟨[("v", ⟨[65, 66], 0, 2, 66, false, 0⟩),
        ("u", ⟨[1], 0, 1, 1, false, 0⟩)], 2, 5, 60, []⟩ :
        ClientLimiter).IsAllowed "u" 70).2.clients "u"
      = some { (⟨[1], 0, 1, 1, false, 0⟩ : ClientInfo) with
          requests := [(1 : Int)].filter (fun t => (70 : Int) - 60 < t) } :=
  global_limit_denial_frame
    (⟨[("v", ⟨[65, 66], 0, 2, 66, false, 0⟩),
       ("u", ⟨[1], 0, 1, 1, false, 0⟩)], 2, 5, 60, []⟩ : ClientLimiter)
    "u" 70 (⟨[1], 0, 1, 1, false, 0⟩ : ClientInfo)
    (by decide) (by decide) (by decide) (by decide) (by decide)

/-- Claim C10.  Every denial of a non-whitelisted client with an existing
record — blocked, per-client limit, or global limit — leaves the record's
last-seen timestamp and total-request counter unchanged; only allowed or
whitelisted requests refresh them. -/
theorem denied_request_keeps_lastseen (cl : ClientLimiter) (ip : String)
    (now : Int) (c : ClientInfo)
    (hw : cl.whitelist.contains ip = false)
    (hc : lookupClient cl.clients ip = some c)
    (hfalse : (cl.IsAllowed ip now).1 = false) :
    ∃ c', lookupClient (cl.IsAllowed ip now).2.clients ip = some c' ∧
      c'.lastSeen = c.lastSeen ∧ c'.totalRequests = c.totalRequests := by
  have hw' : ¬ cl.whitelist.contains ip = true := by
    intro h
    rw [h] at hw
    exact Bool.noConfusion hw
  unfold ClientLimiter.IsAllowed at hfalse ⊢
  rw [if_neg hw'] at hfalse ⊢
  simp only [hc, Option.getD_some] at hfalse ⊢
  by_cases hb : (c.isBlocked && decide (now < c.blockedUntil)) = true
  · rw [if_pos hb]
    exact ⟨c, lookup_setClient_self _ _ _, rfl, rfl⟩
  · rw [if_neg hb] at hfalse ⊢
    by_cases hlim : cl.perClientLimit ≤
        (c.requests.filter (fun t => now - cl.timeWindow < t)).length
    · rw [if_pos hlim]
      exact ⟨_, lookup_setClient_self _ _ _, rfl, rfl⟩
    · rw [if_neg hlim] at hfalse ⊢
      by_cases hg : cl.globalLimit ≤ totalActive
          (setClient (setClient cl.clients ip c) ip
            ({ c with requests := c.requests.filter (fun t => now - cl.timeWindow < t) }))
          (now - cl.timeWindow)
      · rw [if_pos hg]
        exact ⟨_, lookup_setClient_self _ _ _, rfl, rfl⟩
      · rw [if_neg hg] at hfalse
        exact absurd hfalse (by simp)

/-- Witness for `C10`: the denial of `C6`'s witness leaves last-seen 1 and
total-request counter 1 in place. -/
theorem denied_request_keeps_lastseen_witness :
    ∃ c', lookupClient ((⟨[("v", ⟨[65, 66], 0, 2, 66, false, 0⟩),
        ("u", ⟨[1], 0, 1, 1, false, 0⟩)], 2, 5, 60, []⟩ :
        ClientLimiter).IsAllowed "u" 70).2.clients "u" = some c' ∧
      c'.lastSeen = (⟨[1], 0, 1, 1, false, 0⟩ : ClientInfo).lastSeen ∧
      c'.totalRequests = (⟨[1], 0, 1, 1, false, 0⟩ : ClientInfo).totalRequests :=
  denied_request_keeps_lastseen
    (⟨[("v", ⟨[65, 66], 0, 2, 66, false, 0⟩),
       ("u", ⟨[1], 0, 1, 1, false, 0⟩)], 2, 5, 60, []⟩ : ClientLimiter)
    "u" 70 (⟨[1], 0, 1, 1, false, 0⟩ : ClientInfo)
    (by decide) (by decide) (by decide)

/-- Claim C3.  When `IsAllowed` allows a non-whitelisted request, the aggregate
in-window count it measured (after get-or-create and pruning, which leave
the aggregate equal to that of the original state) was strictly below the
global limit, and recording the timestamp raises the aggregate to exactly
one more — hence still at most the global limit.  A whitelisted allow
appends no timestamp and leaves the aggregate unchanged. -/
theorem allow_respects_global_limit (cl : ClientLimiter) (ip : String)
    (now : Int) (hW : 0 < cl.timeWindow)
    (hallow : (cl.IsAllowed ip now).1 = true) :
    (cl.whitelist.contains ip = false →
       cl.totalActiveRequests now < cl.globalLimit ∧
       (cl.IsAllowed ip now).2.totalActiveRequests now
         = cl.totalActiveRequests now + 1 ∧
       (cl.IsAllowed ip now).2.totalActiveRequests now ≤ cl.globalLimit) ∧
    (cl.whitelist.contains ip = true →
       (cl.IsAllowed ip now).2.totalActiveRequests now
         = cl.totalActiveRequests now) := by
  constructor
  · intro hw
    have hw' : ¬ cl.whitelist.contains ip = true := by
      intro h
      rw [h] at hw
      exact Bool.noConfusion hw
    simp only [ClientLimiter.IsAllowed] at hallow ⊢
    rw [if_neg hw'] at hallow ⊢
    set q := (lookupClient cl.clients ip).getD (newClientInfo now) with hq
    by_cases hb : (q.isBlocked && decide (now < q.blockedUntil)) = true
    · rw [if_pos hb] at hallow
      exact absurd hallow (by simp)
    · rw [if_neg hb] at hallow ⊢
      by_cases hlim : cl.perClientLimit ≤
          (q.requests.filter (fun t => now - cl.timeWindow < t)).length
      · rw [if_pos hlim] at hallow
        exact absurd hallow (by simp)
      · rw [if_neg hlim] at hallow ⊢
        by_cases hg : cl.globalLimit ≤ totalActive
            (setClient (setClient cl.clients ip q) ip
              ({ q with requests := q.requests.filter (fun t => now - cl.timeWindow < t) }))
            (now - cl.timeWindow)
        · rw [if_pos hg] at hallow
          exact absurd hallow (by simp)
        · rw [if_neg hg] at hallow ⊢
          have t0 := totalActive_setClient_getD cl.clients ip q
            (now - cl.timeWindow) now
          rw [← hq] at t0
          have l0 : lookupClient (setClient cl.clients ip q) ip = some q :=
            lookup_setClient_self _ _ _
          have t1 := totalActive_setClient_some (setClient cl.clients ip q) ip q
            ({ q with requests := q.requests.filter (fun t => now - cl.timeWindow < t) })
            (now - cl.timeWindow) l0
          have e1 : cntWin ({ q with requests := q.requests.filter (fun t => now - cl.timeWindow < t) } : ClientInfo).requests (now - cl.timeWindow)
              = cntWin q.requests (now - cl.timeWindow) :=
            cntWin_prune q.requests (now - cl.timeWindow)
          rw [e1] at t1
          have l1 : lookupClient (setClient (setClient cl.clients ip q) ip
              ({ q with requests := q.requests.filter (fun t => now - cl.timeWindow < t) })) ip
              = some ({ q with requests := q.requests.filter (fun t => now - cl.timeWindow < t) }) :=
            lookup_setClient_self _ _ _
          have t2 := totalActive_setClient_some
            (setClient (setClient cl.clients ip q) ip
              ({ q with requests := q.requests.filter (fun t => now - cl.timeWindow < t) })) ip
            ({ q with requests := q.requests.filter (fun t => now - cl.timeWindow < t) })
            ({ q with requests := q.requests.filter (fun t => now - cl.timeWindow < t) ++ [now],
                      totalRequests := q.totalRequests + 1,
                      lastSeen := now, isBlocked := false })
            (now - cl.timeWindow) l1
          have ep : ∀ l : List Int,
              cntWin (l ++ [now]) (now - cl.timeWindow)
                = cntWin l (now - cl.timeWindow) + 1 :=
            fun l => cntWin_append_one l (now - cl.timeWindow) now (by omega)
          simp only [ep, cntWin_prune] at t2
          refine ⟨?_, ?_, ?_⟩
          · show totalActive cl.clients (now - cl.timeWindow) < cl.globalLimit
            omega
          · show totalActive (setClient
                (setClient (setClient cl.clients ip q) ip
                  ({ q with requests := q.requests.filter (fun t => now - cl.timeWindow < t) })) ip
                ({ q with requests := q.requests.filter (fun t => now - cl.timeWindow < t) ++ [now],
                          totalRequests := q.totalRequests + 1,
                          lastSeen := now, isBlocked := false }))
                (now - cl.timeWindow)
              = totalActive cl.clients (now - cl.timeWindow) + 1
            omega
          · show totalActive (setClient
                (setClient (setClient cl.clients ip q) ip
                  ({ q with requests := q.requests.filter (fun t => now - cl.timeWindow < t) })) ip
                ({ q with requests := q.requests.filter (fun t => now - cl.timeWindow < t) ++ [now],
                          totalRequests := q.totalRequests + 1,
                          lastSeen := now, isBlocked := false }))
                (now - cl.timeWindow)
              ≤ cl.globalLimit
            omega
  · intro hw
    simp only [ClientLimiter.IsAllowed]
    rw [if_pos hw]
    set q := (lookupClient cl.clients ip).getD (newClientInfo now) with hq
    have t := totalActive_setClient_getD cl.clients ip
      ({ q with lastSeen := now, totalRequests := q.totalRequests + 1 })
      (now - cl.timeWindow) now
    rw [← hq] at t
    have e : cntWin ({ q with lastSeen := now, totalRequests := q.totalRequests + 1 } : ClientInfo).requests (now - cl.timeWindow)
        = cntWin q.requests (now - cl.timeWindow) := rfl
    rw [e] at t
    show totalActive (setClient cl.clients ip
        ({ q with lastSeen := now, totalRequests := q.totalRequests + 1 }))
        (now - cl.timeWindow)
      = totalActive cl.clients (now - cl.timeWindow)
    omega

/-- Witness for `C3`: the first request of the spec scenario is allowed;
instantiating the theorem there shows the aggregate goes from 0 to 1,
below the global limit 100. -/
theorem allow_respects_global_limit_witness :
    (scenarioLimiter.whitelist.contains "c" = false →
       scenarioLimiter.totalActiveRequests 0 < scenarioLimiter.globalLimit ∧
       (scenarioLimiter.IsAllowed "c" 0).2.totalActiveRequests 0
         = scenarioLimiter.totalActiveRequests 0 + 1 ∧
       (scenarioLimiter.IsAllowed "c" 0).2.totalActiveRequests 0
         ≤ scenarioLimiter.globalLimit) ∧
    (scenarioLimiter.whitelist.contains "c" = true →
       (scenarioLimiter.IsAllowed "c" 0).2.totalActiveRequests 0
         = scenarioLimiter.totalActiveRequests 0) :=
  allow_respects_global_limit scenarioLimiter "c" 0 (by decide) (by decide)
